import Mathlib

/-!
Shallow embedding of the `permissions` package of
`packer-post-processor-ami-volume-permissions`.

The source (ami-volume-permissions.go) has three functions carrying all of
the logic:

* `PostProcess` — parses the AMI id out of the artifact id with the regular
  expression `ami-[a-z0-9]+`, performs two remote reads
  (`DescribeImageAttribute` for launch permissions, `DescribeImages` for the
  block-device mappings) and hands their results to `fixSnapshotsForImages`.
* `fixSnapshotsForImages` — walks the images and their block-device
  mappings; every device whose `Ebs.SnapshotId` pointer is non-nil is a
  synchronization target; an update failure returns immediately; if no
  target was found at the end the no-snapshot-devices error is returned.
* `fixSnapshotPermissions` — translates each launch permission into a
  create-volume permission with the same `Group`/`UserId` fields and issues
  one `ModifySnapshotAttribute` call whose modification carries the list in
  its `Add` field only.

The remote EC2 endpoint is modelled as an environment: the two reads are
functions from the image id to a result, and the snapshot mutation is an
oracle from the index of the call (the number of mutation calls already
issued in the run) to `none` (success) or `some cause` (failure).  Every
run returns, next to its Go results, the trace of remote calls it issued,
so that theorems can speak about which calls were made and in which order.
Errors are modelled as their message strings.
-/

/-- `ec2.LaunchPermission`: optional `Group` and `UserId` fields (pointers
in the SDK, hence `Option`). -/
structure LaunchPermission where
  Group : Option String
  UserId : Option String
deriving DecidableEq

/-- `ec2.CreateVolumePermission`: structurally identical to
`LaunchPermission`. -/
structure CreateVolumePermission where
  Group : Option String
  UserId : Option String
deriving DecidableEq

/-- `ec2.EbsBlockDevice`, restricted to the one field the code reads. -/
structure EbsBlockDevice where
  SnapshotId : Option String
deriving DecidableEq

/-- `ec2.BlockDeviceMapping`: a device name and an optional EBS part. -/
structure BlockDeviceMapping where
  DeviceName : Option String
  Ebs : Option EbsBlockDevice
deriving DecidableEq

/-- `ec2.Image`, restricted to the one field the code reads. -/
structure Image where
  BlockDeviceMappings : List BlockDeviceMapping
deriving DecidableEq

/-- `ec2.CreateVolumePermissionModifications`: the SDK request part has both
an `Add` and a `Remove` list; the Go code only ever populates `Add`, and the
`Remove` list stays at its zero value (nil). -/
structure CreateVolumePermissionModifications where
  Add : List CreateVolumePermission
  Remove : List CreateVolumePermission
deriving DecidableEq

/-- `ec2.ModifySnapshotAttributeInput`, restricted to the fields the code
sets. -/
structure ModifySnapshotAttributeInput where
  SnapshotId : String
  CreateVolumePermission : CreateVolumePermissionModifications
deriving DecidableEq

/-- One remote EC2 call, as recorded in a run trace. -/
inductive RemoteCall where
  | describeImageAttribute (imageId : String)
  | describeImages (imageId : String)
  | modifySnapshotAttribute (input : ModifySnapshotAttributeInput)
deriving DecidableEq

/-- The remote endpoint: the two reads keyed by image id, and the mutation
oracle keyed by the index of the mutation call within the run (`none` means
the call succeeds, `some cause` that it fails with that cause). -/
structure Ec2Env where
  describeImageAttribute : String → Except String (List LaunchPermission)
  describeImages : String → Except String (List Image)
  modifySnapshotAttribute : Nat → Option String

/-- The `snapshotPermissions` accumulation loop of `fixSnapshotPermissions`:
`for _, amiPermission := range amiPermissions { snapshotPermissions =
append(snapshotPermissions, &ec2.CreateVolumePermission{Group:
amiPermission.Group, UserId: amiPermission.UserId}) }`. -/
def buildSnapshotPermissions (amiPermissions : List LaunchPermission) :
    List CreateVolumePermission :=
  amiPermissions.foldl
    (fun ps p => ps ++ [{ Group := p.Group, UserId := p.UserId }]) []

/-- `fixSnapshotPermissions`: builds the translated permission list, issues
the one `ModifySnapshotAttribute` call (returned as the first component so
the caller can record it in the trace) and wraps a failure as
`could not modify snapshot attributes: <cause>`.  `idx` is the index of
this mutation call within the run. -/
def fixSnapshotPermissions (modifySnapshotAttribute : Nat → Option String)
    (idx : Nat) (snapshotID : String)
    (amiPermissions : List LaunchPermission) :
    ModifySnapshotAttributeInput × Option String :=
  let input : ModifySnapshotAttributeInput :=
    { SnapshotId := snapshotID
      CreateVolumePermission :=
        { Add := buildSnapshotPermissions amiPermissions, Remove := [] } }
  match modifySnapshotAttribute idx with
  | none => (input, none)
  | some e => (input, some ("could not modify snapshot attributes: " ++ e))

/-- The inner device loop of `fixSnapshotsForImages` for one image's
`BlockDeviceMappings`: a device is a target when `device.Ebs != nil` and
`device.Ebs.SnapshotId != nil`; `foundSnapshotDevice` is threaded through as
`found`, the mutation-call counter as `idx`; the first failing update
returns immediately.  Result: (mutation calls issued, next call index,
found flag, error). -/
def fixDevices (o : Nat → Option String)
    (amiPermissions : List LaunchPermission) :
    List BlockDeviceMapping → Nat → Bool →
    List ModifySnapshotAttributeInput × Nat × Bool × Option String
  | [], idx, found => ([], idx, found, none)
  | device :: rest, idx, found =>
    match device.Ebs with
    | none => fixDevices o amiPermissions rest idx found
    | some ebs =>
      match ebs.SnapshotId with
      | none => fixDevices o amiPermissions rest idx found
      | some snapshotID =>
        match fixSnapshotPermissions o idx snapshotID amiPermissions with
        | (input, some e) => ([input], idx + 1, true, some e)
        | (input, none) =>
          match fixDevices o amiPermissions rest (idx + 1) true with
          | (calls, idx2, found2, res) => (input :: calls, idx2, found2, res)

/-- The outer image loop of `fixSnapshotsForImages`. -/
def fixImages (o : Nat → Option String)
    (amiPermissions : List LaunchPermission) :
    List Image → Nat → Bool →
    List ModifySnapshotAttributeInput × Nat × Bool × Option String
  | [], idx, found => ([], idx, found, none)
  | image :: rest, idx, found =>
    match fixDevices o amiPermissions image.BlockDeviceMappings idx found with
    | (calls, idx2, found2, some e) => (calls, idx2, found2, some e)
    | (calls, idx2, found2, none) =>
      match fixImages o amiPermissions rest idx2 found2 with
      | (calls2, idx3, found3, res) => (calls ++ calls2, idx3, found3, res)

/-- `fixSnapshotsForImages`: runs the loops starting with
`foundSnapshotDevice := false`; an update error is returned as is; otherwise
`!foundSnapshotDevice` yields
`errors.New("Did not find any devices with EBS snapshots")`. -/
def fixSnapshotsForImages (o : Nat → Option String) (images : List Image)
    (amiPermissions : List LaunchPermission) :
    List ModifySnapshotAttributeInput × Option String :=
  match fixImages o amiPermissions images 0 false with
  | (calls, _, _, some e) => (calls, some e)
  | (calls, _, found, none) =>
    if found then (calls, none)
    else (calls, some "Did not find any devices with EBS snapshots")

/-- The snapshot ids of the synchronization targets of a device list, in
device order: exactly the devices with `Ebs != nil` and
`Ebs.SnapshotId != nil`. -/
def snapshotTargets (devices : List BlockDeviceMapping) : List String :=
  devices.filterMap (fun d => d.Ebs.bind (fun e => e.SnapshotId))

/-- The `ModifySnapshotAttribute` input `fixSnapshotPermissions` builds for
a snapshot id under a given launch-permission list. -/
def mkModifyInput (amiPermissions : List LaunchPermission)
    (snapshotID : String) : ModifySnapshotAttributeInput :=
  { SnapshotId := snapshotID
    CreateVolumePermission :=
      { Add := buildSnapshotPermissions amiPermissions, Remove := [] } }

/-- The character class `[a-z0-9]` of the AMI-id regular expression. -/
def isLowerAlnum (c : Char) : Bool :=
  ('a' ≤ c && c ≤ 'z') || ('0' ≤ c && c ≤ '9')

/-- A match of the regular expression `ami-[a-z0-9]+` anchored at the start
of `cs`: the literal `ami-` followed by at least one `[a-z0-9]` character,
extended greedily, `none` when the expression does not match at this
position. -/
def matchAmiAt (cs : List Char) : Option (List Char) :=
  match cs with
  | 'a' :: 'm' :: 'i' :: '-' :: d :: ds =>
    if isLowerAlnum d then
      some ('a' :: 'm' :: 'i' :: '-' :: d :: ds.takeWhile isLowerAlnum)
    else none
  | _ => none

/-- `regexp.Compile("ami-[a-z0-9]+")` followed by `r.FindString`: the match
at the leftmost position where the expression matches, or `none`. -/
def findAmiID : List Char → Option (List Char)
  | [] => none
  | c :: rest =>
    match matchAmiAt (c :: rest) with
    | some r => some r
    | none => findAmiID rest

/-- The apostrophe character, kept out of string literals. -/
def quoteChar : Char := Char.ofNat 39

/-- The quote around the artifact id in the parse-failure message. -/
def quoteStr : String := String.mk [quoteChar]

/-- The AMI-id extraction step of `PostProcess`: `r.FindString(artifact.Id())`
followed by the `amiID == ""` check, whose failure message embeds the
artifact id between single quotes. -/
def parseImageId (artifactId : String) : Except String String :=
  match findAmiID artifactId.data with
  | some r => Except.ok (String.mk r)
  | none =>
    Except.error ("could not find AMI ID in artifact id " ++ quoteStr ++
      artifactId ++ quoteStr)

/-- `PostProcess` (credential/session resolution, an external collaborator
the spec excludes, is elided): parse the AMI id, read the launch
permissions, read the images, fix the snapshots.  Result: (trace of remote
calls, the `bool` result, the error).  The Go function also returns the
artifact unchanged in every branch. -/
def PostProcess (env : Ec2Env) (artifactId : String) :
    List RemoteCall × Bool × Option String :=
  match parseImageId artifactId with
  | Except.error e => ([], false, some e)
  | Except.ok amiID =>
    match env.describeImageAttribute amiID with
    | Except.error e =>
      ([RemoteCall.describeImageAttribute amiID], false,
        some ("could not get image launch permission attribute for image " ++
          amiID ++ ": " ++ e))
    | Except.ok amiPermissions =>
      match env.describeImages amiID with
      | Except.error e =>
        ([RemoteCall.describeImageAttribute amiID,
          RemoteCall.describeImages amiID], false,
          some ("could not get image block device mapping attribute for image " ++
            amiID ++ ": " ++ e))
      | Except.ok images =>
        match fixSnapshotsForImages env.modifySnapshotAttribute images
            amiPermissions with
        | (calls, some e) =>
          (RemoteCall.describeImageAttribute amiID ::
            RemoteCall.describeImages amiID ::
            calls.map RemoteCall.modifySnapshotAttribute, false, some e)
        | (calls, none) =>
          (RemoteCall.describeImageAttribute amiID ::
            RemoteCall.describeImages amiID ::
            calls.map RemoteCall.modifySnapshotAttribute, true, none)

/-- A token of the AMI-id lexical pattern: the literal `ami-` followed by
one or more `[a-z0-9]` characters (and nothing else). -/
def isAmiToken (m : List Char) : Bool :=
  match m with
  | 'a' :: 'm' :: 'i' :: '-' :: body => !body.isEmpty && body.all isLowerAlnum
  | _ => false

/-- `r` is the first match of the AMI-id pattern in `cs`: it is a token, it
occurs in `cs`, no token occurs at an earlier position, and every token at
its position is at most as long. -/
def FirstAmiMatch (cs r : List Char) : Prop :=
  isAmiToken r = true ∧
  ∃ before after, cs = before ++ r ++ after ∧
    ∀ b2 m2 a2, cs = b2 ++ m2 ++ a2 → isAmiToken m2 = true →
      before.length ≤ b2.length ∧
      (b2.length = before.length → m2.length ≤ r.length)

/-! ### Concrete sample inputs (used by witness theorems) -/

/-- A snapshot-backed device, as in the spec example. -/
def devSda1 : BlockDeviceMapping :=
  { DeviceName := some "/dev/sda1", Ebs := some { SnapshotId := some "snap-111" } }

/-- An ephemeral device with no EBS part. -/
def devSdb : BlockDeviceMapping := { DeviceName := some "/dev/sdb", Ebs := none }

/-- A second snapshot-backed device. -/
def devSdc : BlockDeviceMapping :=
  { DeviceName := some "/dev/sdc", Ebs := some { SnapshotId := some "snap-222" } }

/-- A group launch permission, as in the spec example. -/
def permAll : LaunchPermission := { Group := some "all", UserId := none }

/-- An account launch permission. -/
def permAcct : LaunchPermission := { Group := none, UserId := some "123456789012" }

/-- A device list with two snapshot-backed devices around an ephemeral one. -/
def sampleDevices : List BlockDeviceMapping := [devSda1, devSdb, devSdc]

/-- A two-entry launch-permission set. -/
def samplePerms : List LaunchPermission := [permAll, permAcct]

/-- A mutation oracle on which every call succeeds. -/
def succeedingOracle : Nat → Option String := fun _ => none

/-- A mutation oracle on which every call fails. -/
def failingOracle : Nat → Option String := fun _ => some "boom"

/-- A mutation oracle on which the second call (index 1) fails. -/
def failSecondOracle : Nat → Option String :=
  fun i => if i = 1 then some "RequestLimitExceeded" else none

/-- An endpoint on which both reads succeed and every mutation succeeds. -/
def happyEnv : Ec2Env :=
  { describeImageAttribute := fun _ => Except.ok samplePerms
    describeImages := fun _ => Except.ok [Image.mk sampleDevices]
    modifySnapshotAttribute := fun _ => none }

/-- An endpoint on which the launch-permission read fails. -/
def fetchFailEnv : Ec2Env :=
  { describeImageAttribute := fun _ => Except.error "AuthFailure"
    describeImages := fun _ => Except.ok [Image.mk sampleDevices]
    modifySnapshotAttribute := fun _ => none }

/-! ### Helper lemmas about the synchronizer loops -/

theorem buildSnapshotPermissions_eq_map (perms : List LaunchPermission) :
    buildSnapshotPermissions perms =
      perms.map (fun p => { Group := p.Group, UserId := p.UserId }) := by
  have h : ∀ (l : List LaunchPermission) (acc : List CreateVolumePermission),
      l.foldl (fun ps p => ps ++ [{ Group := p.Group, UserId := p.UserId }]) acc =
        acc ++ l.map (fun p => { Group := p.Group, UserId := p.UserId }) := by
    intro l
    induction l with
    | nil => intro acc; simp
    | cons p l ih => intro acc; simp [ih]
  simpa [buildSnapshotPermissions] using h perms []

theorem snapshotTargets_nil : snapshotTargets [] = [] := rfl

theorem snapshotTargets_cons_noEbs (d : BlockDeviceMapping)
    (rest : List BlockDeviceMapping) (h : d.Ebs = none) :
    snapshotTargets (d :: rest) = snapshotTargets rest := by
  simp [snapshotTargets, List.filterMap_cons, h]

theorem snapshotTargets_cons_noSnap (d : BlockDeviceMapping)
    (rest : List BlockDeviceMapping) (e : EbsBlockDevice) (h : d.Ebs = some e)
    (h2 : e.SnapshotId = none) :
    snapshotTargets (d :: rest) = snapshotTargets rest := by
  simp [snapshotTargets, List.filterMap_cons, h, h2, Option.bind]

theorem snapshotTargets_cons_snap (d : BlockDeviceMapping)
    (rest : List BlockDeviceMapping) (e : EbsBlockDevice) (sid : String)
    (h : d.Ebs = some e) (h2 : e.SnapshotId = some sid) :
    snapshotTargets (d :: rest) = sid :: snapshotTargets rest := by
  simp [snapshotTargets, List.filterMap_cons, h, h2, Option.bind]

/-- When every mutation call succeeds, the device loop issues exactly one
call per target, in device order, each with the translated permission list;
the found flag records whether any target existed. -/
theorem fixDevices_success (o : Nat → Option String)
    (perms : List LaunchPermission) (ho : ∀ i, o i = none) :
    ∀ (devices : List BlockDeviceMapping) (idx : Nat) (found : Bool),
      fixDevices o perms devices idx found =
        ((snapshotTargets devices).map (mkModifyInput perms),
          idx + (snapshotTargets devices).length,
          found || !(snapshotTargets devices).isEmpty, none) := by
  intro devices
  induction devices with
  | nil => intro idx found; simp [fixDevices, snapshotTargets_nil]
  | cons d rest ih =>
    intro idx found
    cases hEbs : d.Ebs with
    | none =>
      simp only [fixDevices, hEbs, ih, snapshotTargets_cons_noEbs d rest hEbs]
    | some e =>
      cases hSnap : e.SnapshotId with
      | none =>
        simp only [fixDevices, hEbs, hSnap, ih,
          snapshotTargets_cons_noSnap d rest e hEbs hSnap]
      | some sid =>
        simp only [fixDevices, hEbs, hSnap, fixSnapshotPermissions, ho idx,
          ih (idx + 1) true, snapshotTargets_cons_snap d rest e sid hEbs hSnap,
          mkModifyInput, List.map_cons, List.isEmpty_cons, Bool.true_or,
          Bool.or_true, List.length_cons, Prod.mk.injEq]
        simp
        omega

/-- A device list with no target issues no call and leaves the state
unchanged. -/
theorem fixDevices_noTargets (o : Nat → Option String)
    (perms : List LaunchPermission) :
    ∀ (devices : List BlockDeviceMapping) (idx : Nat) (found : Bool),
      snapshotTargets devices = [] →
      fixDevices o perms devices idx found = ([], idx, found, none) := by
  intro devices
  induction devices with
  | nil => intro idx found _; simp [fixDevices]
  | cons d rest ih =>
    intro idx found hT
    cases hEbs : d.Ebs with
    | none =>
      rw [snapshotTargets_cons_noEbs d rest hEbs] at hT
      simp only [fixDevices, hEbs, ih idx found hT]
    | some e =>
      cases hSnap : e.SnapshotId with
      | none =>
        rw [snapshotTargets_cons_noSnap d rest e hEbs hSnap] at hT
        simp only [fixDevices, hEbs, hSnap, ih idx found hT]
      | some sid =>
        rw [snapshotTargets_cons_snap d rest e sid hEbs hSnap] at hT
        exact absurd hT (List.cons_ne_nil sid (snapshotTargets rest))

/-- When the first `j` mutation calls succeed and the next one fails with
cause `c`, the device loop issues exactly the calls for the first `j + 1`
targets, in device order, and stops with the wrapped cause. -/
theorem fixDevices_fail (o : Nat → Option String)
    (perms : List LaunchPermission) :
    ∀ (devices : List BlockDeviceMapping) (idx : Nat) (found : Bool)
      (j : Nat) (c : String),
      j + 1 ≤ (snapshotTargets devices).length →
      (∀ i, i < j → o (idx + i) = none) →
      o (idx + j) = some c →
      fixDevices o perms devices idx found =
        (((snapshotTargets devices).take (j + 1)).map (mkModifyInput perms),
          idx + j + 1, true,
          some ("could not modify snapshot attributes: " ++ c)) := by
  intro devices
  induction devices with
  | nil =>
    intro idx found j c hlen _ _
    rw [snapshotTargets_nil] at hlen
    exact absurd hlen (by simp)
  | cons d rest ih =>
    intro idx found j c hlen hsucc hfail
    cases hEbs : d.Ebs with
    | none =>
      rw [snapshotTargets_cons_noEbs d rest hEbs] at hlen ⊢
      simp only [fixDevices, hEbs, ih idx found j c hlen hsucc hfail]
    | some e =>
      cases hSnap : e.SnapshotId with
      | none =>
        rw [snapshotTargets_cons_noSnap d rest e hEbs hSnap] at hlen ⊢
        simp only [fixDevices, hEbs, hSnap, ih idx found j c hlen hsucc hfail]
      | some sid =>
        rw [snapshotTargets_cons_snap d rest e sid hEbs hSnap] at hlen ⊢
        cases j with
        | zero =>
          have h0 : o idx = some c := by simpa using hfail
          simp [fixDevices, hEbs, hSnap, fixSnapshotPermissions, h0,
            mkModifyInput]
        | succ j2 =>
          have h0 : o idx = none := by
            have := hsucc 0 (Nat.succ_pos j2)
            simpa using this
          have hsucc2 : ∀ i, i < j2 → o (idx + 1 + i) = none := by
            intro i hi
            have := hsucc (i + 1) (by omega)
            rw [show idx + 1 + i = idx + (i + 1) by omega]
            exact this
          have hfail2 : o (idx + 1 + j2) = some c := by
            rw [show idx + 1 + j2 = idx + (j2 + 1) by omega]
            exact hfail
          have hlen2 : j2 + 1 ≤ (snapshotTargets rest).length := by
            simp at hlen; omega
          simp only [fixDevices, hEbs, hSnap, fixSnapshotPermissions, h0,
            ih (idx + 1) true j2 c hlen2 hsucc2 hfail2,
            List.take_succ_cons, List.map_cons, mkModifyInput, Prod.mk.injEq]
          simp
          omega

/-- Every mutation call the device loop issues has an empty `Remove`
list. -/
theorem fixDevices_remove_nil (o : Nat → Option String)
    (perms : List LaunchPermission) :
    ∀ (devices : List BlockDeviceMapping) (idx : Nat) (found : Bool)
      (inp : ModifySnapshotAttributeInput),
      inp ∈ (fixDevices o perms devices idx found).1 →
      inp.CreateVolumePermission.Remove = [] := by
  intro devices
  induction devices with
  | nil => intro idx found inp h; simp [fixDevices] at h
  | cons d rest ih =>
    intro idx found inp h
    cases hEbs : d.Ebs with
    | none =>
      simp only [fixDevices, hEbs] at h
      exact ih idx found inp h
    | some e =>
      cases hSnap : e.SnapshotId with
      | none =>
        simp only [fixDevices, hEbs, hSnap] at h
        exact ih idx found inp h
      | some sid =>
        simp only [fixDevices, hEbs, hSnap, fixSnapshotPermissions] at h
        cases ho : o idx with
        | none =>
          simp only [ho] at h
          rcases h2 :
              fixDevices o perms rest (idx + 1) true with ⟨calls, idx2, found2, res⟩
          rw [h2] at h
          simp at h
          rcases h with h | h
          · rw [h]
          · exact ih (idx + 1) true inp (by rw [h2]; exact h)
        | some c =>
          simp only [ho] at h
          simp at h
          rw [h]

/-! ### Helper lemmas about the artifact-id parser -/

theorem isAmiToken_iff (m : List Char) : isAmiToken m = true ↔
    ∃ body, m = 'a' :: 'm' :: 'i' :: '-' :: body ∧ body ≠ [] ∧
      ∀ c ∈ body, isLowerAlnum c = true := by
  constructor
  · intro h
    unfold isAmiToken at h
    split at h
    · next body =>
      simp at h
      exact ⟨body, rfl, h.1, h.2⟩
    · simp at h
  · rintro ⟨body, rfl, hne, hall⟩
    simp [isAmiToken, hne]
    exact hall

theorem matchAmiAt_isSome (m rest : List Char) (h : isAmiToken m = true) :
    ∃ r, matchAmiAt (m ++ rest) = some r := by
  obtain ⟨body, rfl, hne, hall⟩ := (isAmiToken_iff m).mp h
  obtain ⟨d, bs, rfl⟩ : ∃ d bs, body = d :: bs := by
    cases body with
    | nil => exact absurd rfl hne
    | cons d bs => exact ⟨d, bs, rfl⟩
  have hd : isLowerAlnum d = true := hall d (by simp)
  refine ⟨'a' :: 'm' :: 'i' :: '-' :: d :: (bs ++ rest).takeWhile isLowerAlnum, ?_⟩
  simp [matchAmiAt, hd]

theorem takeWhile_all_le (p : Char → Bool) :
    ∀ (l t : List Char), (∀ c ∈ l, p c = true) →
      l.length ≤ ((l ++ t).takeWhile p).length := by
  intro l
  induction l with
  | nil => intro t _; simp
  | cons c l ih =>
    intro t hall
    have hc : p c = true := hall c (by simp)
    simp only [List.cons_append, List.takeWhile_cons, hc, if_true,
      List.length_cons]
    have := ih t (fun x hx => hall x (by simp [hx]))
    omega

theorem matchAmiAt_sound (cs r : List Char) (h : matchAmiAt cs = some r) :
    isAmiToken r = true ∧ ∃ post, cs = r ++ post ∧
      ∀ x, post.head? = some x → isLowerAlnum x = false := by
  unfold matchAmiAt at h
  split at h
  · next d ds =>
    split at h
    · next hd =>
      obtain rfl : 'a' :: 'm' :: 'i' :: '-' :: d :: ds.takeWhile isLowerAlnum = r :=
        Option.some.inj h
      refine ⟨?_, ds.dropWhile isLowerAlnum, ?_, ?_⟩
      · rw [isAmiToken_iff]
        refine ⟨d :: ds.takeWhile isLowerAlnum, rfl, by simp, ?_⟩
        intro c hc
        rcases List.mem_cons.mp hc with rfl | hc
        · exact hd
        · exact List.mem_takeWhile_imp hc
      · simp [List.takeWhile_append_dropWhile]
      · intro x hx
        have := List.head?_dropWhile_not isLowerAlnum ds
        rw [hx] at this
        simpa using this
    · exact absurd h (by simp)
  · exact absurd h (by simp)

theorem matchAmiAt_maximal (cs r : List Char) (h : matchAmiAt cs = some r) :
    ∀ m post, cs = m ++ post → isAmiToken m = true → m.length ≤ r.length := by
  intro m post hcs hm
  obtain ⟨bodyM, rfl, hne, hall⟩ := (isAmiToken_iff m).mp hm
  obtain ⟨b0, bs, rfl⟩ : ∃ b0 bs, bodyM = b0 :: bs := by
    cases bodyM with
    | nil => exact absurd rfl hne
    | cons b0 bs => exact ⟨b0, bs, rfl⟩
  unfold matchAmiAt at h
  split at h
  · next d ds =>
    split at h
    · next hd =>
      obtain rfl : 'a' :: 'm' :: 'i' :: '-' :: d :: ds.takeWhile isLowerAlnum = r :=
        Option.some.inj h
      simp only [List.cons_append, List.cons.injEq, true_and] at hcs
      obtain ⟨rfl, rfl⟩ := hcs
      have hb0 : isLowerAlnum d = true := hall d (by simp)
      have hlen := takeWhile_all_le isLowerAlnum (d :: bs) post hall
      simp only [List.cons_append, List.takeWhile_cons, hb0, if_true,
        List.length_cons] at hlen
      simp only [List.length_cons]
      omega
    · exact absurd h (by simp)
  · exact absurd h (by simp)

theorem findAmiID_isSome (m : List Char) (hm : isAmiToken m = true) :
    ∀ b a, (findAmiID (b ++ m ++ a)).isSome = true := by
  intro b
  induction b with
  | nil =>
    intro a
    obtain ⟨r, hr⟩ := matchAmiAt_isSome m a hm
    obtain ⟨body, hbody, _, _⟩ := (isAmiToken_iff m).mp hm
    subst hbody
    simp only [List.cons_append, List.nil_append] at hr ⊢
    rw [findAmiID, hr]
    simp
  | cons p ps ih =>
    intro a
    have hshape : (p :: ps) ++ m ++ a = p :: (ps ++ m ++ a) := by simp
    rw [hshape, findAmiID]
    cases h : matchAmiAt (p :: (ps ++ m ++ a)) with
    | some r => simp
    | none => simpa using ih a

theorem findAmiID_first (cs r : List Char) (h : findAmiID cs = some r) :
    isAmiToken r = true ∧ ∃ b a, cs = b ++ r ++ a ∧
      ∀ b2 m2 a2, cs = b2 ++ m2 ++ a2 → isAmiToken m2 = true →
        b.length ≤ b2.length ∧
        (b2.length = b.length → m2.length ≤ r.length) := by
  induction cs with
  | nil => exact absurd h (by simp [findAmiID])
  | cons c rest ih =>
    rw [findAmiID] at h
    cases hmc : matchAmiAt (c :: rest) with
    | some r0 =>
      rw [hmc] at h
      have hr0 : r = r0 := (Option.some.inj h).symm
      subst hr0
      obtain ⟨htok, post, hpost, _⟩ := matchAmiAt_sound (c :: rest) r hmc
      refine ⟨htok, [], post, by simpa using hpost, ?_⟩
      intro b2 m2 a2 hdec hm2
      refine ⟨Nat.zero_le _, ?_⟩
      intro hb2
      obtain rfl : b2 = [] := List.length_eq_zero.mp (by simpa using hb2)
      exact matchAmiAt_maximal (c :: rest) r hmc m2 a2 (by simpa using hdec) hm2
    | none =>
      rw [hmc] at h
      obtain ⟨htok, b, a, heq, hmin⟩ := ih h
      refine ⟨htok, c :: b, a, by simp [heq], ?_⟩
      intro b2 m2 a2 hdec hm2
      cases b2 with
      | nil =>
        obtain ⟨r2, hr2⟩ := matchAmiAt_isSome m2 a2 hm2
        rw [show c :: rest = m2 ++ a2 from by simpa using hdec] at hmc
        rw [hr2] at hmc
        exact absurd hmc (by simp)
      | cons c2 b2t =>
        have hdec2 : rest = b2t ++ m2 ++ a2 := by
          have := hdec
          simp only [List.cons_append, List.cons.injEq] at this
          exact this.2
        obtain ⟨h1, h2⟩ := hmin b2t m2 a2 hdec2 hm2
        constructor
        · simp only [List.length_cons]; omega
        · intro hlen
          simp only [List.length_cons] at hlen
          exact h2 (by omega)

/-! ### Helper lemmas about whole runs -/

/-- A fully successful run over a single image: one call per target, in
device order; the no-snapshot-devices error exactly when there is no
target. -/
theorem fixSnapshotsForImages_single_success (o : Nat → Option String)
    (perms : List LaunchPermission) (devices : List BlockDeviceMapping)
    (ho : ∀ i, o i = none) :
    fixSnapshotsForImages o [Image.mk devices] perms =
      ((snapshotTargets devices).map (mkModifyInput perms),
        if (snapshotTargets devices).isEmpty
        then some "Did not find any devices with EBS snapshots" else none) := by
  rw [fixSnapshotsForImages, fixImages,
    fixDevices_success o perms ho devices 0 false]
  cases hE : (snapshotTargets devices).isEmpty with
  | true => simp [fixImages, hE]
  | false => simp [fixImages, hE]

theorem fixImages_remove_nil (o : Nat → Option String)
    (perms : List LaunchPermission) :
    ∀ (images : List Image) (idx : Nat) (found : Bool)
      (inp : ModifySnapshotAttributeInput),
      inp ∈ (fixImages o perms images idx found).1 →
      inp.CreateVolumePermission.Remove = [] := by
  intro images
  induction images with
  | nil => intro idx found inp h; simp [fixImages] at h
  | cons img rest ih =>
    intro idx found inp h
    rw [fixImages] at h
    rcases h2 : fixDevices o perms img.BlockDeviceMappings idx found with
      ⟨calls, idx2, found2, res⟩
    rw [h2] at h
    cases res with
    | some e =>
      have h4 : inp ∈ calls := h
      exact fixDevices_remove_nil o perms img.BlockDeviceMappings idx found inp
        (by rw [h2]; exact h4)
    | none =>
      have h4 : inp ∈ (match fixImages o perms rest idx2 found2 with
          | (calls2, idx3, found3, res) =>
            (calls ++ calls2, idx3, found3, res)).1 := h
      rcases h3 : fixImages o perms rest idx2 found2 with
        ⟨calls2, idx3, found3, res2⟩
      rw [h3] at h4
      simp only [List.mem_append] at h4
      rcases h4 with h4 | h4
      · exact fixDevices_remove_nil o perms img.BlockDeviceMappings idx found inp
          (by rw [h2]; exact h4)
      · exact ih idx2 found2 inp (by rw [h3]; exact h4)

theorem fixSnapshotsForImages_remove_nil (o : Nat → Option String)
    (images : List Image) (perms : List LaunchPermission)
    (inp : ModifySnapshotAttributeInput)
    (h : inp ∈ (fixSnapshotsForImages o images perms).1) :
    inp.CreateVolumePermission.Remove = [] := by
  rw [fixSnapshotsForImages] at h
  rcases h2 : fixImages o perms images 0 false with ⟨calls, idx2, found2, res⟩
  rw [h2] at h
  have hcalls : inp ∈ calls := by
    cases res with
    | some e => simpa using h
    | none =>
      cases found2 with
      | true => simpa using h
      | false => simpa using h
  exact fixImages_remove_nil o perms images 0 false inp (by rw [h2]; exact hcalls)

/-! ### Claim theorems -/

/-- C1: for an image whose block-device list contains `k` devices backed by
a snapshot id, a run in which every update call succeeds issues exactly
`k` snapshot-attribute update calls — one per snapshot-backed device, in
the order the devices appear in the device list — each carrying the full
translated permission list, whose length is the size `n` of the
launch-permission set. -/
theorem fixSnapshotsForImages_one_call_per_snapshot_device
    (o : Nat → Option String) (perms : List LaunchPermission)
    (devices : List BlockDeviceMapping) (ho : ∀ i, o i = none) :
    (fixSnapshotsForImages o [Image.mk devices] perms).1 =
      (snapshotTargets devices).map (mkModifyInput perms) ∧
    (fixSnapshotsForImages o [Image.mk devices] perms).1.length =
      (snapshotTargets devices).length ∧
    ∀ inp ∈ (fixSnapshotsForImages o [Image.mk devices] perms).1,
      inp.CreateVolumePermission.Add =
        perms.map (fun p => { Group := p.Group, UserId := p.UserId }) ∧
      inp.CreateVolumePermission.Add.length = perms.length := by
  have h := fixSnapshotsForImages_single_success o perms devices ho
  rw [h]
  refine ⟨rfl, by simp, ?_⟩
  intro inp hin
  simp only [List.mem_map] at hin
  obtain ⟨sid, _, rfl⟩ := hin
  constructor
  · simp [mkModifyInput, buildSnapshotPermissions_eq_map]
  · simp [mkModifyInput, buildSnapshotPermissions_eq_map]

/-- Witness for C1: a three-device image with two snapshot-backed devices
and a two-entry permission set. -/
theorem fixSnapshotsForImages_one_call_per_snapshot_device_witness :
    (fixSnapshotsForImages succeedingOracle [Image.mk sampleDevices]
        samplePerms).1 =
      (snapshotTargets sampleDevices).map (mkModifyInput samplePerms) ∧
    (fixSnapshotsForImages succeedingOracle [Image.mk sampleDevices]
        samplePerms).1.length = (snapshotTargets sampleDevices).length ∧
    ∀ inp ∈ (fixSnapshotsForImages succeedingOracle [Image.mk sampleDevices]
        samplePerms).1,
      inp.CreateVolumePermission.Add =
        samplePerms.map (fun p => { Group := p.Group, UserId := p.UserId }) ∧
      inp.CreateVolumePermission.Add.length = samplePerms.length :=
  fixSnapshotsForImages_one_call_per_snapshot_device succeedingOracle
    samplePerms sampleDevices (fun _ => rfl)

/-- C2: for an image with zero snapshot-backed devices, synchronization
fails with the no-snapshot-devices error and issues zero update calls,
whatever the mutation oracle would have answered. -/
theorem fixSnapshotsForImages_errors_without_snapshot_devices
    (o : Nat → Option String) (perms : List LaunchPermission)
    (devices : List BlockDeviceMapping)
    (h : snapshotTargets devices = []) :
    fixSnapshotsForImages o [Image.mk devices] perms =
      ([], some "Did not find any devices with EBS snapshots") := by
  simp only [fixSnapshotsForImages, fixImages,
    fixDevices_noTargets o perms devices 0 false h]
  simp

/-- Witness for C2: an image whose only device has no EBS part. -/
theorem fixSnapshotsForImages_errors_without_snapshot_devices_witness :
    fixSnapshotsForImages succeedingOracle [Image.mk [devSdb]] samplePerms =
      ([], some "Did not find any devices with EBS snapshots") :=
  fixSnapshotsForImages_errors_without_snapshot_devices succeedingOracle
    samplePerms [devSdb] (by decide)

/-- C3: when the `k`-th update call fails (the first `k - 1` succeed), the
run has issued exactly the calls for the first `k` snapshot-backed devices
in device order — so the `k - 1` earlier updates were issued (and, by the
oracle hypothesis, succeeded), the `k`-th was issued and failed, no call is
attempted for any later device, and every issued call is purely additive
(`Remove` empty), i.e. nothing is rolled back. -/
theorem fixSnapshotsForImages_stops_at_first_failed_update
    (o : Nat → Option String) (perms : List LaunchPermission)
    (devices : List BlockDeviceMapping) (k : Nat) (c : String)
    (hk : 1 ≤ k) (hlen : k ≤ (snapshotTargets devices).length)
    (hsucc : ∀ i, i < k - 1 → o i = none)
    (hfail : o (k - 1) = some c) :
    fixSnapshotsForImages o [Image.mk devices] perms =
      (((snapshotTargets devices).take k).map (mkModifyInput perms),
        some ("could not modify snapshot attributes: " ++ c)) ∧
    (((snapshotTargets devices).take k).map (mkModifyInput perms)).length = k ∧
    ∀ inp ∈ ((snapshotTargets devices).take k).map (mkModifyInput perms),
      inp.CreateVolumePermission.Remove = [] := by
  obtain ⟨j, rfl⟩ : ∃ j, k = j + 1 := ⟨k - 1, by omega⟩
  have hsucc2 : ∀ i, i < j → o (0 + i) = none := by
    intro i hi
    simpa using hsucc i (by omega)
  have hfail2 : o (0 + j) = some c := by simpa using hfail
  have hd := fixDevices_fail o perms devices 0 false j c (by omega) hsucc2 hfail2
  refine ⟨?_, ?_, ?_⟩
  · simp only [fixSnapshotsForImages, fixImages, hd]
  · rw [List.length_map, List.length_take]; omega
  · intro inp hin
    simp only [List.mem_map] at hin
    obtain ⟨sid, _, rfl⟩ := hin
    rfl

/-- Witness for C3: the second of two snapshot-backed devices fails
(`k = 2`). -/
theorem fixSnapshotsForImages_stops_at_first_failed_update_witness :
    fixSnapshotsForImages failSecondOracle [Image.mk sampleDevices]
        samplePerms =
      (((snapshotTargets sampleDevices).take 2).map (mkModifyInput samplePerms),
        some ("could not modify snapshot attributes: " ++
          "RequestLimitExceeded")) ∧
    (((snapshotTargets sampleDevices).take 2).map
        (mkModifyInput samplePerms)).length = 2 ∧
    ∀ inp ∈ ((snapshotTargets sampleDevices).take 2).map
        (mkModifyInput samplePerms),
      inp.CreateVolumePermission.Remove = [] :=
  fixSnapshotsForImages_stops_at_first_failed_update failSecondOracle
    samplePerms sampleDevices 2 "RequestLimitExceeded" (by decide) (by decide)
    (fun i hi => by
      have h0 : i = 0 := by omega
      subst h0
      rfl)
    rfl

/-- C4, counterexample: a failing update on the snapshot `snap-111` returns
the error `could not modify snapshot attributes: boom`, which does not
contain the failing snapshot's id — the error identifies only the
underlying cause, not the snapshot. -/
theorem modify_failure_message_lacks_snapshot_id :
    (fixSnapshotsForImages failingOracle [Image.mk [devSda1]] samplePerms).2 =
      some "could not modify snapshot attributes: boom" ∧
    ¬ ("snap-111".data <:+:
        "could not modify snapshot attributes: boom".data) := by
  constructor
  · decide
  · decide

/-- C4, amended: for every failed per-snapshot update call, the error
returned to the caller is `could not modify snapshot attributes: <cause>`,
which carries the underlying cause but not the snapshot id (the snapshot id
is only written to the UI transcript before the call). -/
theorem modify_failure_message_carries_cause (o : Nat → Option String)
    (idx : Nat) (sid : String) (perms : List LaunchPermission) (c : String)
    (h : o idx = some c) :
    (fixSnapshotPermissions o idx sid perms).2 =
      some ("could not modify snapshot attributes: " ++ c) ∧
    c.data <:+: ("could not modify snapshot attributes: " ++ c).data := by
  refine ⟨by simp [fixSnapshotPermissions, h], ?_⟩
  exact ⟨"could not modify snapshot attributes: ".data, [],
    by simp [String.data_append]⟩

/-- Witness for the amended C4: a concrete failing call. -/
theorem modify_failure_message_carries_cause_witness :
    (fixSnapshotPermissions failingOracle 0 "snap-111" samplePerms).2 =
      some ("could not modify snapshot attributes: " ++ "boom") ∧
    "boom".data <:+: ("could not modify snapshot attributes: " ++ "boom").data :=
  modify_failure_message_carries_cause failingOracle 0 "snap-111" samplePerms
    "boom" rfl

/-- C7: the create-volume permission list sent in an update call is the
launch-permission list translated entry by entry — same length, and at
every index the same `Group` and `UserId` fields — with no filtering,
deduplication, reordering, or validation. -/
theorem fixSnapshotPermissions_translates_fieldwise (o : Nat → Option String)
    (idx : Nat) (sid : String) (perms : List LaunchPermission) :
    (fixSnapshotPermissions o idx sid perms).1.CreateVolumePermission.Add =
      perms.map (fun p => { Group := p.Group, UserId := p.UserId }) ∧
    (fixSnapshotPermissions o idx sid perms).1.CreateVolumePermission.Add.length =
      perms.length ∧
    ∀ i : Nat,
      ((fixSnapshotPermissions o idx sid perms).1.CreateVolumePermission.Add)[i]? =
        (perms[i]?).map (fun p => { Group := p.Group, UserId := p.UserId }) := by
  have h1 : (fixSnapshotPermissions o idx sid perms).1.CreateVolumePermission.Add =
      buildSnapshotPermissions perms := by
    cases ho : o idx <;> simp [fixSnapshotPermissions, ho]
  rw [h1, buildSnapshotPermissions_eq_map]
  refine ⟨rfl, by simp, ?_⟩
  intro i
  simp [List.getElem?_map]

/-- C10: with an empty launch-permission set and at least one
snapshot-backed device, the run still succeeds and still issues one
additive update call per snapshot target, each carrying an empty additions
list. -/
theorem empty_permission_set_still_updates (o : Nat → Option String)
    (devices : List BlockDeviceMapping) (ho : ∀ i, o i = none)
    (hne : snapshotTargets devices ≠ []) :
    fixSnapshotsForImages o [Image.mk devices] [] =
      ((snapshotTargets devices).map (mkModifyInput []), none) ∧
    ∀ inp ∈ (snapshotTargets devices).map (mkModifyInput []),
      inp.CreateVolumePermission.Add = [] := by
  have h := fixSnapshotsForImages_single_success o [] devices ho
  have hE : (snapshotTargets devices).isEmpty = false := by
    cases hT : snapshotTargets devices with
    | nil => exact absurd hT hne
    | cons x xs => simp
  rw [hE] at h
  refine ⟨by simpa using h, ?_⟩
  intro inp hin
  simp only [List.mem_map] at hin
  obtain ⟨sid, _, rfl⟩ := hin
  rfl

/-- Witness for C10: the sample image with two snapshot-backed devices and
no launch permissions. -/
theorem empty_permission_set_still_updates_witness :
    fixSnapshotsForImages succeedingOracle [Image.mk sampleDevices] [] =
      ((snapshotTargets sampleDevices).map (mkModifyInput []), none) ∧
    ∀ inp ∈ (snapshotTargets sampleDevices).map (mkModifyInput []),
      inp.CreateVolumePermission.Add = [] :=
  empty_permission_set_still_updates succeedingOracle sampleDevices
    (fun _ => rfl) (by decide)

/-- C5: for every artifact string containing at least one substring
matching `ami-` followed by one or more lowercase alphanumeric characters,
the parser succeeds and returns exactly the first such substring —
a matching token occurring in the string, at the leftmost position where
any matching token occurs, maximal among the tokens at that position —
ignoring all surrounding text. -/
theorem parseImageId_returns_first_ami_token (s : String) (b m a : List Char)
    (h : s.data = b ++ m ++ a) (hm : isAmiToken m = true) :
    ∃ r, parseImageId s = Except.ok (String.mk r) ∧ FirstAmiMatch s.data r := by
  have hsome := findAmiID_isSome m hm b a
  rw [← h] at hsome
  cases hf : findAmiID s.data with
  | none => rw [hf] at hsome; simp at hsome
  | some r =>
    obtain ⟨htok, b2, a2, heq, hmin⟩ := findAmiID_first s.data r hf
    exact ⟨r, by simp [parseImageId, hf], htok, b2, a2, heq, hmin⟩

/-- Witness for C5: the spec's example artifact id. -/
theorem parseImageId_returns_first_ami_token_witness :
    ∃ r, parseImageId "ap-southeast-2:ami-4f8fae2c" =
        Except.ok (String.mk r) ∧
      FirstAmiMatch "ap-southeast-2:ami-4f8fae2c".data r :=
  parseImageId_returns_first_ami_token "ap-southeast-2:ami-4f8fae2c"
    "ap-southeast-2:".data "ami-4f8fae2c".data [] (by decide) (by decide)

/-- C6: for every artifact string with no substring matching the image-id
pattern, `PostProcess` fails before any remote call — the trace is empty —
with an error whose message embeds the original artifact string verbatim
between single quotes. -/
theorem PostProcess_parse_failure_makes_no_remote_calls (env : Ec2Env)
    (s : String)
    (h : ∀ b m a, s.data = b ++ m ++ a → isAmiToken m = false) :
    PostProcess env s =
      ([], false,
        some ("could not find AMI ID in artifact id " ++ quoteStr ++ s ++
          quoteStr)) ∧
    ∃ u v, ("could not find AMI ID in artifact id " ++ quoteStr ++ s ++
      quoteStr) = u ++ s ++ v := by
  have hf : findAmiID s.data = none := by
    cases hf : findAmiID s.data with
    | none => rfl
    | some r =>
      obtain ⟨htok, b, a, heq, _⟩ := findAmiID_first s.data r hf
      rw [h b r a heq] at htok
      simp at htok
  refine ⟨?_, "could not find AMI ID in artifact id " ++ quoteStr, quoteStr,
    rfl⟩
  simp [PostProcess, parseImageId, hf]

/-- Witness for C6: the spec's example of an artifact id with no `ami-`
token. -/
theorem PostProcess_parse_failure_makes_no_remote_calls_witness :
    PostProcess happyEnv "us-east-1:i-12345" =
      ([], false,
        some ("could not find AMI ID in artifact id " ++ quoteStr ++
          "us-east-1:i-12345" ++ quoteStr)) ∧
    ∃ u v, ("could not find AMI ID in artifact id " ++ quoteStr ++
      "us-east-1:i-12345" ++ quoteStr) = u ++ "us-east-1:i-12345" ++ v :=
  PostProcess_parse_failure_makes_no_remote_calls happyEnv "us-east-1:i-12345"
    (by
      intro b m a hd
      cases h2 : isAmiToken m with
      | false => rfl
      | true =>
        have h3 := findAmiID_isSome m h2 b a
        rw [← hd] at h3
        rw [show findAmiID "us-east-1:i-12345".data = none from by decide] at h3
        simp at h3)

/-- C8: every snapshot mutation issued in any run of `PostProcess` only adds
create-volume permissions: the `Remove` list of the modification request is
always empty. -/
theorem PostProcess_snapshot_mutations_only_add (env : Ec2Env)
    (artifactId : String) (inp : ModifySnapshotAttributeInput)
    (h : RemoteCall.modifySnapshotAttribute inp ∈
      (PostProcess env artifactId).1) :
    inp.CreateVolumePermission.Remove = [] := by
  cases hp : parseImageId artifactId with
  | error e =>
    simp only [PostProcess, hp] at h
    simp at h
  | ok amiID =>
    cases ha : env.describeImageAttribute amiID with
    | error e =>
      simp only [PostProcess, hp, ha] at h
      simp at h
    | ok perms =>
      cases hi : env.describeImages amiID with
      | error e =>
        simp only [PostProcess, hp, ha, hi] at h
        simp at h
      | ok images =>
        rcases hfix : fixSnapshotsForImages env.modifySnapshotAttribute images
          perms with ⟨calls, res⟩
        have hcalls : inp ∈ calls := by
          cases res with
          | some e =>
            simp only [PostProcess, hp, ha, hi, hfix] at h
            simpa using h
          | none =>
            simp only [PostProcess, hp, ha, hi, hfix] at h
            simpa using h
        exact fixSnapshotsForImages_remove_nil env.modifySnapshotAttribute
          images perms inp (by rw [hfix]; exact hcalls)

/-- Witness for C8: the first mutation of a successful sample run. -/
theorem PostProcess_snapshot_mutations_only_add_witness :
    (mkModifyInput samplePerms "snap-111").CreateVolumePermission.Remove = [] :=
  PostProcess_snapshot_mutations_only_add happyEnv
    "ap-southeast-2:ami-4f8fae2c" (mkModifyInput samplePerms "snap-111")
    (by decide)

/-- C9: when either remote read fails, the run aborts with `false` and an
error carrying the image id and the underlying cause, and no snapshot
update call appears in the trace. -/
theorem PostProcess_fetch_failure_aborts_without_updates (env : Ec2Env)
    (s amiID c : String)
    (hp : parseImageId s = Except.ok amiID)
    (hf : env.describeImageAttribute amiID = Except.error c ∨
      (∃ perms, env.describeImageAttribute amiID = Except.ok perms ∧
        env.describeImages amiID = Except.error c)) :
    ∃ msg, (PostProcess env s).2.1 = false ∧
      (PostProcess env s).2.2 = some msg ∧
      (∀ inp : ModifySnapshotAttributeInput,
        RemoteCall.modifySnapshotAttribute inp ∉ (PostProcess env s).1) ∧
      amiID.data <:+: msg.data ∧ c.data <:+: msg.data := by
  rcases hf with ha | ⟨perms, ha, hi⟩
  · refine ⟨"could not get image launch permission attribute for image " ++
      amiID ++ ": " ++ c, ?_, ?_, ?_, ?_, ?_⟩
    · simp [PostProcess, hp, ha]
    · simp [PostProcess, hp, ha]
    · intro inp
      simp [PostProcess, hp, ha]
    · exact ⟨"could not get image launch permission attribute for image ".data,
        (": " ++ c).data, by simp [String.data_append]⟩
    · exact ⟨("could not get image launch permission attribute for image " ++
        amiID ++ ": ").data, [], by simp [String.data_append]⟩
  · refine ⟨"could not get image block device mapping attribute for image " ++
      amiID ++ ": " ++ c, ?_, ?_, ?_, ?_, ?_⟩
    · simp [PostProcess, hp, ha, hi]
    · simp [PostProcess, hp, ha, hi]
    · intro inp
      simp [PostProcess, hp, ha, hi]
    · exact ⟨("could not get image block device mapping attribute for image ").data,
        (": " ++ c).data, by simp [String.data_append]⟩
    · exact ⟨("could not get image block device mapping attribute for image " ++
        amiID ++ ": ").data, [], by simp [String.data_append]⟩

/-- Witness for C9: the launch-permission read fails with `AuthFailure`. -/
theorem PostProcess_fetch_failure_aborts_without_updates_witness :
    ∃ msg, (PostProcess fetchFailEnv "ap-southeast-2:ami-4f8fae2c").2.1 = false ∧
      (PostProcess fetchFailEnv "ap-southeast-2:ami-4f8fae2c").2.2 = some msg ∧
      (∀ inp : ModifySnapshotAttributeInput,
        RemoteCall.modifySnapshotAttribute inp ∉
          (PostProcess fetchFailEnv "ap-southeast-2:ami-4f8fae2c").1) ∧
      "ami-4f8fae2c".data <:+: msg.data ∧ "AuthFailure".data <:+: msg.data :=
  PostProcess_fetch_failure_aborts_without_updates fetchFailEnv
    "ap-southeast-2:ami-4f8fae2c" "ami-4f8fae2c" "AuthFailure" rfl
    (Or.inl rfl)
